import Mathlib

/-!
Verification of the classification & normalization engine of the
workforce-data collector.  Python strings are modelled as `List Char`;
the source functions from `federated/data_adapter.py` and
`linkedin_collector.py` are translated definition by definition.
-/

/-- Python whitespace characters recognised by `str.strip` / `str.split`. -/
def pyWS (c : Char) : Bool :=
  c == ' ' || c == '\t' || c == '\n' || c == '\r' || c == '\x0b' || c == '\x0c'

/-- Model of Python `str.lower` (ASCII-relevant part). -/
def lowerStr (s : List Char) : List Char := s.map Char.toLower

/-- Model of Python `str.upper` (ASCII-relevant part). -/
def upperStr (s : List Char) : List Char := s.map Char.toUpper

/-- Model of Python `str.strip`: drop whitespace at both ends. -/
def trimStr (s : List Char) : List Char :=
  ((s.dropWhile pyWS).reverse.dropWhile pyWS).reverse

/-- Convert a Lean string literal to the `List Char` model. -/
def cl (s : String) : List Char := s.toList

/-- `startsL p s` holds when `p` is an initial segment of `s`. -/
def startsL : List Char → List Char → Bool
  | [], _ => true
  | _ :: _, [] => false
  | a :: p, b :: s => a == b && startsL p s

/-- Model of Python substring containment `p in s`. -/
def subIn (p : List Char) : List Char → Bool
  | [] => startsL p []
  | b :: s => startsL p (b :: s) || subIn p s

/-- Model of Python `str.endswith`. -/
def endsW (e s : List Char) : Bool := startsL e.reverse s.reverse

/-- Model of Python list membership `v in xs` for lists of strings. -/
def memStr : List (List Char) → List Char → Bool
  | [], _ => false
  | x :: xs, v => x == v || memStr xs v

/-- One tier's rule set: keyword patterns and exact grade codes
(`DEFAULT_TIER_KEYWORDS` entries in `data_adapter.py`). -/
structure TierRule where
  keywords : List (List Char)
  grades : List (List Char)

/-- The `DEFAULT_TIER_KEYWORDS` table of `data_adapter.py`, as a total map;
tiers outside 1..6 give the empty rule (Python `dict.get(tier, {})`). -/
def defaultTierKeywords : Nat → TierRule
  | 1 => ⟨[cl "board", cl "director", cl "non-executive", cl "independent director",
           cl "chairman", cl "chairperson"], []⟩
  | 2 => ⟨[cl "ceo", cl "cfo", cl "cto", cl "coo", cl "cmo", cl "cpo", cl "chro", cl "cio",
           cl "chief", cl "managing director", cl "md", cl "president",
           cl "executive director", cl "ed", cl "svp", cl "senior vice president"],
          [cl "E1", cl "E2", cl "L10", cl "L9"]⟩
  | 3 => ⟨[cl "vice president", cl "vp ", cl "avp", cl "associate vice president",
           cl "general manager", cl "gm", cl "senior director", cl "head of",
           cl "principal", cl "evp"],
          [cl "E3", cl "E4", cl "L8", cl "L7", cl "M5", cl "M4"]⟩
  | 4 => ⟨[cl "director", cl "senior manager", cl "manager", cl "associate director",
           cl "program manager", cl "delivery manager", cl "project manager"],
          [cl "M3", cl "M2", cl "L6", cl "L5"]⟩
  | 5 => ⟨[cl "lead", cl "team lead", cl "tech lead", cl "senior consultant",
           cl "senior analyst", cl "senior engineer", cl "senior developer",
           cl "senior associate", cl "supervisor", cl "assistant manager"],
          [cl "M1", cl "L4", cl "L3", cl "A4", cl "A3"]⟩
  | 6 => ⟨[cl "analyst", cl "associate", cl "engineer", cl "developer", cl "consultant",
           cl "executive", cl "trainee", cl "intern", cl "graduate", cl "fresher"],
          [cl "A2", cl "A1", cl "L2", cl "L1", cl "T1", cl "T2"]⟩
  | _ => ⟨[], []⟩

/-- The keyword loop of `DataAdapter.classify_tier`: some keyword of the rule
occurs as a plain substring of the (already lower-cased) title. -/
def kwHit (r : TierRule) (titleLower : List Char) : Bool :=
  r.keywords.any (fun kw => subIn kw titleLower)

/-- One iteration of the tier loop of `DataAdapter.classify_tier`:
keyword check on the lower-cased title, then grade check on the
upper-cased grade. -/
def tierHit (m : Nat → TierRule) (title grade : List Char) (t : Nat) : Bool :=
  kwHit (m t) (lowerStr title) || memStr (m t).grades (upperStr grade)

/-- Return the first element of the list passing the test, or 0. -/
def firstHit (hit : Nat → Bool) : List Nat → Nat
  | [] => 0
  | t :: ts => if hit t then t else firstHit hit ts

/-- `DataAdapter.classify_tier`: tiers are scanned in ascending order 1..6,
the first tier whose keyword or grade check succeeds is returned, 0 if none. -/
def classifyTier (m : Nat → TierRule) (title grade : List Char) : Nat :=
  firstHit (tierHit m title grade) [1, 2, 3, 4, 5, 6]

/-- Male tokens accepted by `DataAdapter.normalize_gender`. -/
def ngMaleTokens : List (List Char) := [cl "M", cl "MALE", cl "1", cl "MAN", cl "HE"]

/-- Female tokens accepted by `DataAdapter.normalize_gender`. -/
def ngFemaleTokens : List (List Char) := [cl "F", cl "FEMALE", cl "2", cl "WOMAN", cl "SHE"]

/-- `DataAdapter.normalize_gender`: empty input gives "O"; otherwise the
input is stripped, upper-cased and matched against the fixed token lists. -/
def normalizeGender (value : List Char) : List Char :=
  if value = [] then cl "O"
  else
    let v := upperStr (trimStr value)
    if memStr ngMaleTokens v then cl "M"
    else if memStr ngFemaleTokens v then cl "F"
    else cl "O"

/-- The `gender_values` configuration of `CSVAdapter`. -/
structure GenderValues where
  male : List (List Char)
  female : List (List Char)

/-- Default `gender_values` of `CSVAdapter.__init__`. -/
def csvDefaultGenderValues : GenderValues :=
  ⟨[cl "M", cl "Male", cl "MALE", cl "1", cl "Man"],
   [cl "F", cl "Female", cl "FEMALE", cl "2", cl "Woman"]⟩

/-- Default `active_values` of `CSVAdapter.__init__`. -/
def csvDefaultActiveValues : List (List Char) :=
  [cl "Active", cl "ACTIVE", cl "1", cl "Y", cl "Yes", cl "TRUE", cl "Current"]

/-- `CSVAdapter._map_gender`: the value is stripped (not upper-cased) and
matched case-sensitively against the configured male/female lists. -/
def mapGender (gv : GenderValues) (value : List Char) : List Char :=
  let v := trimStr value
  if memStr gv.male v then cl "M"
  else if memStr gv.female v then cl "F"
  else cl "O"

/-- The `INDIAN_NAMES_GENDER` lexicon of `linkedin_collector.py`. -/
def indianNamesGender : List (List Char × List Char) :=
  [(cl "priya", cl "F"), (cl "neha", cl "F"), (cl "pooja", cl "F"), (cl "anjali", cl "F"),
   (cl "divya", cl "F"), (cl "swati", cl "F"), (cl "kavita", cl "F"), (cl "sunita", cl "F"),
   (cl "meera", cl "F"), (cl "anita", cl "F"), (cl "deepika", cl "F"), (cl "shreya", cl "F"),
   (cl "nisha", cl "F"), (cl "rekha", cl "F"), (cl "geeta", cl "F"), (cl "shalini", cl "F"),
   (cl "preeti", cl "F"), (cl "manisha", cl "F"), (cl "rashmi", cl "F"), (cl "smita", cl "F"),
   (cl "archana", cl "F"), (cl "shweta", cl "F"), (cl "pallavi", cl "F"), (cl "jyoti", cl "F"),
   (cl "ritu", cl "F"), (cl "aarti", cl "F"), (cl "sneha", cl "F"), (cl "bhavna", cl "F"),
   (cl "garima", cl "F"), (cl "kriti", cl "F"), (cl "aditi", cl "F"), (cl "aishwarya", cl "F"),
   (cl "ananya", cl "F"), (cl "diya", cl "F"), (cl "isha", cl "F"), (cl "kiara", cl "F"),
   (cl "mira", cl "F"), (cl "nandini", cl "F"), (cl "riya", cl "F"), (cl "saanvi", cl "F"),
   (cl "tanvi", cl "F"), (cl "vedika", cl "F"), (cl "zara", cl "F"), (cl "anika", cl "F"),
   (cl "avni", cl "F"),
   (cl "rahul", cl "M"), (cl "amit", cl "M"), (cl "raj", cl "M"), (cl "suresh", cl "M"),
   (cl "rajesh", cl "M"), (cl "vijay", cl "M"), (cl "ajay", cl "M"), (cl "sanjay", cl "M"),
   (cl "deepak", cl "M"), (cl "manoj", cl "M"), (cl "arun", cl "M"), (cl "kumar", cl "M"),
   (cl "ravi", cl "M"), (cl "sandeep", cl "M"), (cl "vikram", cl "M"), (cl "ashok", cl "M"),
   (cl "ramesh", cl "M"), (cl "mukesh", cl "M"), (cl "dinesh", cl "M"), (cl "naresh", cl "M"),
   (cl "rohit", cl "M"), (cl "nikhil", cl "M"), (cl "varun", cl "M"), (cl "karan", cl "M"),
   (cl "arjun", cl "M"), (cl "aarav", cl "M"), (cl "advait", cl "M"), (cl "arnav", cl "M"),
   (cl "dev", cl "M"), (cl "harsh", cl "M"), (cl "ishaan", cl "M"), (cl "kabir", cl "M"),
   (cl "krishna", cl "M"), (cl "mohit", cl "M"), (cl "pranav", cl "M"), (cl "reyansh", cl "M"),
   (cl "siddharth", cl "M"), (cl "veer", cl "M"), (cl "yash", cl "M"), (cl "aditya", cl "M"),
   (cl "akash", cl "M"), (cl "ankit", cl "M"), (cl "gaurav", cl "M"), (cl "himanshu", cl "M"),
   (cl "manish", cl "M")]

/-- Association lookup, modelling `name in dict` followed by `dict[name]`. -/
def assocFind : List (List Char × List Char) → List Char → Option (List Char)
  | [], _ => none
  | (k, v) :: rest, n => if k == n then some v else assocFind rest n

/-- The `female_endings` list of `estimate_gender`. -/
def femaleEndings : List (List Char) :=
  [cl "a", cl "i", cl "ee", cl "ti", cl "ni", cl "ya", cl "ka", cl "na", cl "ri"]

/-- The `male_endings` list of `estimate_gender`. -/
def maleEndings : List (List Char) :=
  [cl "sh", cl "raj", cl "deep", cl "kumar", cl "esh", cl "an", cl "av"]

/-- `estimate_gender` of `linkedin_collector.py`: empty input gives "U";
otherwise the name is lower-cased and stripped, looked up in the lexicon,
then the female suffix list is tested (requiring name length above 3),
then the male suffix list (no length requirement), else "U". -/
def estimateGender (firstName : List Char) : List Char :=
  if firstName = [] then cl "U"
  else
    let name := trimStr (lowerStr firstName)
    match assocFind indianNamesGender name with
    | some g => g
    | none =>
      if femaleEndings.any (fun e => endsW e name && decide (3 < name.length)) then cl "F"
      else if maleEndings.any (fun e => endsW e name) then cl "M"
      else cl "U"

/-- Tier-1 keyword list (`tier_1`) inside `classify_title`. -/
def ctTier1 : List (List Char) :=
  [cl "independent director", cl "non-executive director", cl "board member",
   cl "board of director", cl " chairman ", cl "chairperson", cl "chairwoman"]

/-- Tier-2 keyword list (`tier_2`) inside `classify_title`. -/
def ctTier2 : List (List Char) :=
  [cl "chief executive", cl "chief financial", cl "chief technology",
   cl "chief operating", cl "chief marketing", cl "chief information",
   cl "chief human", cl "chief people", cl "chief product", cl "chief revenue",
   cl " ceo ", cl " cfo ", cl " cto ", cl " coo ", cl " cmo ", cl " cio ",
   cl " chro ", cl " cpo ", cl "managing director", cl " president ",
   cl " founder", cl "co-founder"]

/-- Tier-3 keyword list (`tier_3`) inside `classify_title`. -/
def ctTier3 : List (List Char) :=
  [cl "executive vice president", cl "senior vice president", cl "vice president",
   cl " evp ", cl " svp ", cl " vp ", cl " vp,", cl ",vp ", cl "vp-",
   cl "general manager", cl "global head", cl "country head", cl "regional head",
   cl "business head", cl " head of ", cl " partner "]

/-- Tier-4 keyword list (`tier_4`) inside `classify_title`. -/
def ctTier4 : List (List Char) :=
  [cl "senior director", cl "associate director", cl " director ", cl " director,",
   cl "senior manager", cl "program manager", cl "project manager", cl "product manager",
   cl "delivery manager", cl "engagement manager", cl "engineering manager",
   cl " manager "]

/-- Tier-5 keyword list (`tier_5`) inside `classify_title`. -/
def ctTier5 : List (List Char) :=
  [cl "team lead", cl "tech lead", cl "lead engineer", cl "lead developer",
   cl "lead analyst", cl " supervisor ", cl "senior consultant", cl "senior analyst",
   cl "senior engineer", cl "senior developer", cl "senior associate",
   cl "senior specialist", cl "senior software engineer", cl "senior software developer",
   cl " principal ", cl " lead ", cl " staff engineer", cl " staff developer",
   cl "senior "]

/-- Tier-6 keyword list (`tier_6`) inside `classify_title`. -/
def ctTier6 : List (List Char) :=
  [cl " analyst ", cl " associate ", cl " consultant ", cl " engineer ",
   cl " developer ", cl " executive ", cl " trainee ", cl " intern ",
   cl " fresher ", cl " graduate ", cl " specialist "]

/-- The per-tier keyword lists of `classify_title`, as a total map. -/
def linkedinTierKw : Nat → List (List Char)
  | 1 => ctTier1
  | 2 => ctTier2
  | 3 => ctTier3
  | 4 => ctTier4
  | 5 => ctTier5
  | 6 => ctTier6
  | _ => []

/-- Some keyword of the list occurs in the padded lower-cased title. -/
def anyKw (kws : List (List Char)) (padded : List Char) : Bool :=
  kws.any (fun kw => subIn kw padded)

/-- `classify_title` of `linkedin_collector.py`: empty title gives 0; the
title is lower-cased and wrapped in spaces once, then the six keyword
lists (whose entries carry their own selective padding) are tried in
ascending tier order; the first hit wins, else 0. -/
def classifyTitle (title : List Char) : Nat :=
  if title = [] then 0
  else firstHit (fun t => anyKw (linkedinTierKw t) (' ' :: lowerStr title ++ [' '])) [1, 2, 3, 4, 5, 6]

/-- `AggregateCount` of `linkedin_collector.py`. -/
structure AggregateCount where
  male : Nat
  female : Nat
  unknown : Nat

/-- The `total` property of `AggregateCount`. -/
def totalCount (c : AggregateCount) : Nat := c.male + c.female + c.unknown

/-- The `female_pct` property of `AggregateCount`:
`round(female / (male+female) * 100, 1)` when `male+female > 0`, else 0.
Python rounds to one decimal; here this is modelled over `ℚ` via
`round (x * 10) / 10` (Python's tie-breaking at exact half-tenths is
round-half-even; no claim settled here sits on such a tie). -/
def femalePct (c : AggregateCount) : ℚ :=
  if 0 < c.male + c.female then
    ((round (((c.female : ℚ) / ((c.male : ℚ) + (c.female : ℚ)) * 100) * 10) : ℤ) : ℚ) / 10
  else 0

/-- The six per-tier buckets and profile counter of `CompanyResearchData`. -/
structure CompanyAgg where
  tier1Board : AggregateCount
  tier2CSuite : AggregateCount
  tier3Senior : AggregateCount
  tier4Middle : AggregateCount
  tier5Junior : AggregateCount
  tier6Entry : AggregateCount
  totalProfilesAnalyzed : Nat

/-- The state `CompanyResearchData.__post_init__` produces: all counters 0. -/
def emptyAgg : CompanyAgg := ⟨⟨0, 0, 0⟩, ⟨0, 0, 0⟩, ⟨0, 0, 0⟩, ⟨0, 0, 0⟩, ⟨0, 0, 0⟩, ⟨0, 0, 0⟩, 0⟩

/-- The gender dispatch of the card loop: exactly one of the three
counters is incremented, male first, then female, else unknown. -/
def bumpGender (c : AggregateCount) (g : List Char) : AggregateCount :=
  if g = cl "M" then { c with male := c.male + 1 }
  else if g = cl "F" then { c with female := c.female + 1 }
  else { c with unknown := c.unknown + 1 }

/-- Read the bucket of a tier (`tier_map` lookup); tiers outside 1..6 give
a dummy empty bucket. -/
def getB (st : CompanyAgg) : Nat → AggregateCount
  | 1 => st.tier1Board
  | 2 => st.tier2CSuite
  | 3 => st.tier3Senior
  | 4 => st.tier4Middle
  | 5 => st.tier5Junior
  | 6 => st.tier6Entry
  | _ => ⟨0, 0, 0⟩

/-- The `if tier in tier_map` update of the card loop: the bucket of the
tier is bumped; tiers outside 1..6 leave the state unchanged. -/
def applyTier (st : CompanyAgg) (t : Nat) (g : List Char) : CompanyAgg :=
  match t with
  | 1 => { st with tier1Board := bumpGender st.tier1Board g }
  | 2 => { st with tier2CSuite := bumpGender st.tier2CSuite g }
  | 3 => { st with tier3Senior := bumpGender st.tier3Senior g }
  | 4 => { st with tier4Middle := bumpGender st.tier4Middle g }
  | 5 => { st with tier5Junior := bumpGender st.tier5Junior g }
  | 6 => { st with tier6Entry := bumpGender st.tier6Entry g }
  | _ => st

/-- Model of Python `str.split()` (split on whitespace runs, no empties):
accumulator-based scan. -/
def splitWSAux : List Char → List Char → List (List Char)
  | [], acc => if acc = [] then [] else [acc.reverse]
  | c :: cs, acc =>
    if pyWS c then
      if acc = [] then splitWSAux cs [] else acc.reverse :: splitWSAux cs []
    else splitWSAux cs (c :: acc)

/-- Model of Python `str.split()`. -/
def splitWS (s : List Char) : List (List Char) := splitWSAux s []

/-- One profile card of `search_company_employees`: the first name is the
first whitespace token of the (upstream-stripped) name, gender is
estimated, the title classified, the matching bucket bumped, and
`total_profiles_analyzed` incremented unconditionally. -/
def processCard (st : CompanyAgg) (name title : List Char) : CompanyAgg :=
  let firstName := (splitWS name).headD []
  let g := estimateGender firstName
  let tier := classifyTitle title
  let st1 := applyTier st tier g
  { st1 with totalProfilesAnalyzed := st1.totalProfilesAnalyzed + 1 }

/-- The card loop of `search_company_employees` over a batch of
`(name, title)` pairs. -/
def ingest (st : CompanyAgg) (cards : List (List Char × List Char)) : CompanyAgg :=
  cards.foldl (fun s c => processCard s c.1 c.2) st

/-- Sum of the six bucket totals. -/
def sumBuckets (st : CompanyAgg) : Nat :=
  totalCount st.tier1Board + totalCount st.tier2CSuite + totalCount st.tier3Senior +
  totalCount st.tier4Middle + totalCount st.tier5Junior + totalCount st.tier6Entry

/-- The configuration of `CSVAdapter`: field mapping, gender values,
active values, and the tier rule table. -/
structure CSVConfig where
  genderCol : Option (List Char)
  titleCol : Option (List Char)
  gradeCol : Option (List Char)
  statusCol : Option (List Char)
  deptCol : Option (List Char)
  genderValues : GenderValues
  activeValues : List (List Char)
  tierMapping : Nat → TierRule

/-- `StandardEmployee` of `data_adapter.py`. -/
structure StandardEmployee where
  gender : List Char
  tier : Nat
  isActive : Bool
  tenureBand : Option (List Char)
  departmentType : Option (List Char)

/-- Model of `row.get(col, "")` over a row given as an association list;
a missing column yields the empty string. -/
def rowGet : List (List Char × List Char) → List Char → List Char
  | [], _ => []
  | (k, v) :: rest, c => if k == c then v else rowGet rest c

/-- Model of `str(row.get(col, "")) if col else ""`. -/
def getField (row : List (List Char × List Char)) : Option (List Char) → List Char
  | some c => rowGet row c
  | none => []

/-- The body of the row loop of `CSVAdapter.fetch_employees`: gender is
mapped, tier classified from title and grade, activity decided by the
status column (default active), and a record is produced only when the
tier is positive. -/
def rowToRecord (cfg : CSVConfig) (row : List (List Char × List Char)) : Option StandardEmployee :=
  let gender := mapGender cfg.genderValues (getField row cfg.genderCol)
  let title := getField row cfg.titleCol
  let grade := getField row cfg.gradeCol
  let isActive := match cfg.statusCol with
    | some c => memStr cfg.activeValues (rowGet row c)
    | none => true
  let dept := cfg.deptCol.map (fun c => rowGet row c)
  let tier := classifyTier cfg.tierMapping title grade
  if 0 < tier then some ⟨gender, tier, isActive, none, dept⟩ else none

/-- `CSVAdapter.fetch_employees` over a list of rows. -/
def fetchEmployees (cfg : CSVConfig) (rows : List (List (List Char × List Char))) :
    List StandardEmployee :=
  rows.filterMap (rowToRecord cfg)

/-- The field mapping of the demo configuration at the bottom of
`data_adapter.py` (gender/designation/grade/status/department columns),
with the default gender, active and tier tables. -/
def demoCfg : CSVConfig :=
  ⟨some (cl "gender"), some (cl "designation"), some (cl "grade"), some (cl "status"),
   some (cl "department"), csvDefaultGenderValues, csvDefaultActiveValues,
   defaultTierKeywords⟩

/-- Modelled from the spec: the word-boundary matcher the spec describes
for tier classification — both the pattern and the title are lower-cased
and wrapped with a single leading and trailing space, then tested for
substring containment.  Kept separate from the source functions above to
compare the two. -/
def padStr (s : List Char) : List Char := ' ' :: s ++ [' ']

/-- Modelled from the spec: a keyword matches a title per the spec's
word-boundary rule. -/
def specKeywordMatch (kw title : List Char) : Bool :=
  subIn (padStr (lowerStr kw)) (padStr (lowerStr title))

theorem startsL_iff (p s : List Char) : startsL p s = true ↔ ∃ t, s = p ++ t := by
  induction p generalizing s with
  | nil => simp [startsL]
  | cons a p ih =>
    cases s with
    | nil => simp [startsL]
    | cons b s =>
      simp only [startsL, Bool.and_eq_true, beq_iff_eq, ih, List.cons_append,
        List.cons.injEq]
      constructor
      · rintro ⟨rfl, t, rfl⟩
        exact ⟨t, rfl, rfl⟩
      · rintro ⟨t, rfl, rfl⟩
        exact ⟨rfl, t, rfl⟩

theorem subIn_iff (p s : List Char) : subIn p s = true ↔ ∃ u v, s = u ++ p ++ v := by
  induction s with
  | nil =>
    simp only [subIn, startsL_iff]
    constructor
    · rintro ⟨t, ht⟩
      exact ⟨[], t, ht⟩
    · rintro ⟨u, v, huv⟩
      have hu : u = [] := by
        cases u with
        | nil => rfl
        | cons a u => simp at huv
      subst hu
      exact ⟨v, huv⟩
  | cons b s ih =>
    simp only [subIn, Bool.or_eq_true, startsL_iff, ih]
    constructor
    · rintro (⟨t, ht⟩ | ⟨u, v, huv⟩)
      · exact ⟨[], t, by simp [ht]⟩
      · exact ⟨b :: u, v, by simp [huv]⟩
    · rintro ⟨u, v, huv⟩
      cases u with
      | nil =>
        left
        exact ⟨v, by simpa using huv⟩
      | cons a u =>
        right
        simp only [List.cons_append, List.cons.injEq] at huv
        exact ⟨u, v, huv.2⟩

theorem subIn_trans {a b c : List Char} (h1 : subIn a b = true) (h2 : subIn b c = true) :
    subIn a c = true := by
  rw [subIn_iff] at h1 h2 ⊢
  obtain ⟨u, v, rfl⟩ := h1
  obtain ⟨x, y, rfl⟩ := h2
  exact ⟨x ++ u, v ++ y, by simp⟩

theorem concatInj {a b : List Char} {x y : Char} (h : a ++ [x] = b ++ [y]) :
    a = b ∧ x = y := by
  have h2 := congrArg List.reverse h
  simp only [List.reverse_append, List.reverse_cons, List.reverse_nil, List.nil_append,
    List.singleton_append, List.cons.injEq] at h2
  exact ⟨by
    have := h2.2
    have h3 := congrArg List.reverse this
    simpa using h3, h2.1⟩

theorem unpadMatch {a b : List Char} (h : subIn (padStr a) (padStr b) = true) :
    subIn a b = true := by
  rw [subIn_iff] at h ⊢
  obtain ⟨u, v, huv⟩ := h
  simp only [padStr, List.cons_append, List.append_assoc] at huv
  cases u with
  | nil =>
    simp only [List.nil_append, List.cons.injEq] at huv
    have hb : b ++ [' '] = a ++ ([' '] ++ v) := by
      have := huv.2
      simpa [List.append_assoc] using this
    rcases List.eq_nil_or_concat v with rfl | ⟨v', c, rfl⟩
    · simp only [List.append_nil] at hb
      have := concatInj hb
      exact ⟨[], [], by simp [this.1]⟩
    · have hb2 : b ++ [' '] = (a ++ [' '] ++ v') ++ [c] := by
        simpa [List.append_assoc] using hb
      have := concatInj hb2
      exact ⟨[], [' '] ++ v', by simpa [List.append_assoc] using this.1⟩
  | cons u0 u' =>
    simp only [List.cons_append, List.cons.injEq] at huv
    have hb : b ++ [' '] = u' ++ ([' '] ++ (a ++ ([' '] ++ v))) := by
      have := huv.2
      simpa [List.append_assoc] using this
    rcases List.eq_nil_or_concat v with rfl | ⟨v', c, rfl⟩
    · have hb2 : b ++ [' '] = (u' ++ [' '] ++ a) ++ [' '] := by
        simpa [List.append_assoc] using hb
      have := concatInj hb2
      exact ⟨u' ++ [' '], [], by simpa [List.append_assoc] using this.1⟩
    · have hb2 : b ++ [' '] = (u' ++ [' '] ++ a ++ [' '] ++ v') ++ [c] := by
        simpa [List.append_assoc] using hb
      have := concatInj hb2
      exact ⟨u' ++ [' '], [' '] ++ v', by simpa [List.append_assoc] using this.1⟩

theorem firstHit_mem (hit : Nat → Bool) (l : List Nat) :
    firstHit hit l = 0 ∨ firstHit hit l ∈ l := by
  induction l with
  | nil => left; rfl
  | cons t ts ih =>
    by_cases h : hit t = true
    · right; simp [firstHit, h]
    · rcases ih with h0 | hm
      · left; simp [firstHit, h, h0]
      · right; simp [firstHit, h, hm]

theorem classifyTier_range (m : Nat → TierRule) (title grade : List Char) :
    classifyTier m title grade = 0 ∨
      (1 ≤ classifyTier m title grade ∧ classifyTier m title grade ≤ 6) := by
  rcases firstHit_mem (tierHit m title grade) [1, 2, 3, 4, 5, 6] with h | h
  · left; exact h
  · right
    have hm : classifyTier m title grade ∈ [1, 2, 3, 4, 5, 6] := h
    simp only [List.mem_cons, List.not_mem_nil, or_false] at hm
    rcases hm with hm | hm | hm | hm | hm | hm <;> omega

theorem firstHitSix_eq (hit : Nat → Bool) (t : Nat) (h1 : 1 ≤ t) (h6 : t ≤ 6)
    (hh : hit t = true) (hlow : ∀ s, 1 ≤ s → s < t → hit s = false) :
    firstHit hit [1, 2, 3, 4, 5, 6] = t := by
  interval_cases t
  · simp [firstHit, hh]
  · simp [firstHit, hh, hlow 1 (by norm_num) (by norm_num)]
  · simp [firstHit, hh, hlow 1 (by norm_num) (by norm_num),
      hlow 2 (by norm_num) (by norm_num)]
  · simp [firstHit, hh, hlow 1 (by norm_num) (by norm_num),
      hlow 2 (by norm_num) (by norm_num), hlow 3 (by norm_num) (by norm_num)]
  · simp [firstHit, hh, hlow 1 (by norm_num) (by norm_num),
      hlow 2 (by norm_num) (by norm_num), hlow 3 (by norm_num) (by norm_num),
      hlow 4 (by norm_num) (by norm_num)]
  · simp [firstHit, hh, hlow 1 (by norm_num) (by norm_num),
      hlow 2 (by norm_num) (by norm_num), hlow 3 (by norm_num) (by norm_num),
      hlow 4 (by norm_num) (by norm_num), hlow 5 (by norm_num) (by norm_num)]

theorem classifyTier_eq_of (m : Nat → TierRule) (title grade : List Char) (t : Nat)
    (h1 : 1 ≤ t) (h6 : t ≤ 6) (hh : tierHit m title grade t = true)
    (hlow : ∀ s, 1 ≤ s → s < t → tierHit m title grade s = false) :
    classifyTier m title grade = t :=
  firstHitSix_eq _ t h1 h6 hh hlow

theorem classifyTitle_range (t : List Char) :
    classifyTitle t = 0 ∨ (1 ≤ classifyTitle t ∧ classifyTitle t ≤ 6) := by
  unfold classifyTitle
  by_cases h : t = []
  · left; simp [h]
  · rw [if_neg h]
    rcases firstHit_mem (fun k => anyKw (linkedinTierKw k) (' ' :: lowerStr t ++ [' '])) [1, 2, 3, 4, 5, 6] with hm | hm
    · left; exact hm
    · right
      simp only [List.mem_cons, List.not_mem_nil, or_false] at hm
      rcases hm with hm | hm | hm | hm | hm | hm <;> omega

theorem bump_total (c : AggregateCount) (g : List Char) :
    totalCount (bumpGender c g) = totalCount c + 1 := by
  unfold bumpGender totalCount
  split_ifs <;> simp <;> omega

theorem applyTier_out (st : CompanyAgg) (g : List Char) (k : Nat)
    (h : ¬(1 ≤ k ∧ k ≤ 6)) : applyTier st k g = st := by
  rcases k with _ | _ | _ | _ | _ | _ | _ | k
  · rfl
  · omega
  · omega
  · omega
  · omega
  · omega
  · omega
  · rfl

theorem applyTier_sum (st : CompanyAgg) (g : List Char) (k : Nat)
    (h1 : 1 ≤ k) (h6 : k ≤ 6) :
    sumBuckets (applyTier st k g) = sumBuckets st + 1 := by
  interval_cases k <;> simp [applyTier, sumBuckets, bump_total] <;> omega

theorem applyTier_total (st : CompanyAgg) (g : List Char) (k : Nat) :
    (applyTier st k g).totalProfilesAnalyzed = st.totalProfilesAnalyzed := by
  unfold applyTier
  split <;> rfl

theorem getB_bump (st : CompanyAgg) (g : List Char) (k : Nat)
    (h1 : 1 ≤ k) (h6 : k ≤ 6) :
    getB (applyTier st k g) k = bumpGender (getB st k) g := by
  interval_cases k <;> rfl

theorem getB_other (st : CompanyAgg) (g : List Char) (k j : Nat)
    (hj1 : 1 ≤ j) (hj6 : j ≤ 6) (hne : j ≠ k) :
    getB (applyTier st k g) j = getB st j := by
  by_cases hk : 1 ≤ k ∧ k ≤ 6
  · obtain ⟨hk1, hk6⟩ := hk
    interval_cases j <;> interval_cases k <;> first | omega | rfl
  · rw [applyTier_out st g k hk]

theorem getB_setTotal (st : CompanyAgg) (x : Nat) (j : Nat) :
    getB { st with totalProfilesAnalyzed := x } j = getB st j := by
  rcases j with _ | _ | _ | _ | _ | _ | _ | j <;> rfl

def incOne (a b : AggregateCount) : Prop :=
  (b.male = a.male + 1 ∧ b.female = a.female ∧ b.unknown = a.unknown) ∨
  (b.male = a.male ∧ b.female = a.female + 1 ∧ b.unknown = a.unknown) ∨
  (b.male = a.male ∧ b.female = a.female ∧ b.unknown = a.unknown + 1)

theorem incOne_bump (c : AggregateCount) (g : List Char) : incOne c (bumpGender c g) := by
  unfold bumpGender incOne
  split_ifs <;> simp

theorem process_total (st : CompanyAgg) (n t : List Char) :
    (processCard st n t).totalProfilesAnalyzed = st.totalProfilesAnalyzed + 1 := by
  unfold processCard
  simp [applyTier_total]

theorem process_sum (st : CompanyAgg) (n t : List Char) :
    sumBuckets (processCard st n t) =
      sumBuckets st + (if classifyTitle t = 0 then 0 else 1) := by
  unfold processCard
  have hsb : ∀ (st1 : CompanyAgg) (x : Nat),
      sumBuckets { st1 with totalProfilesAnalyzed := x } = sumBuckets st1 := by
    intro st1 x; rfl
  rcases classifyTitle_range t with h0 | ⟨h1, h6⟩
  · simp only [h0, hsb]
    rw [applyTier_out _ _ _ (by omega)]
    simp
  · simp only [hsb]
    rw [applyTier_sum _ _ _ h1 h6, if_neg (by omega)]

theorem ingest_total (cards : List (List Char × List Char)) :
    ∀ st : CompanyAgg,
      (ingest st cards).totalProfilesAnalyzed = st.totalProfilesAnalyzed + cards.length := by
  induction cards with
  | nil => intro st; rfl
  | cons c cs ih =>
    intro st
    have : ingest st (c :: cs) = ingest (processCard st c.1 c.2) cs := rfl
    rw [this, ih, process_total]
    simp [Nat.add_assoc, Nat.add_comm 1]

theorem ingest_sum (cards : List (List Char × List Char)) :
    ∀ st : CompanyAgg,
      sumBuckets (ingest st cards) +
        (cards.filter (fun c => classifyTitle c.2 == 0)).length =
      sumBuckets st + cards.length := by
  induction cards with
  | nil => intro st; rfl
  | cons c cs ih =>
    intro st
    have h1 : ingest st (c :: cs) = ingest (processCard st c.1 c.2) cs := rfl
    have h2 := ih (processCard st c.1 c.2)
    have h3 := process_sum st c.1 c.2
    by_cases h : classifyTitle c.2 = 0
    · rw [if_pos h] at h3
      have hb : (classifyTitle c.2 == 0) = true := by simp [h]
      simp only [h1, List.filter_cons, hb, if_true, List.length_cons]
      omega
    · rw [if_neg h] at h3
      have hb : (classifyTitle c.2 == 0) = false := by simp [h]
      simp only [h1, List.filter_cons, hb, Bool.false_eq_true, if_false, List.length_cons]
      omega

theorem rowGet_absent (row : List (List Char × List Char)) (c : List Char)
    (h : ∀ p ∈ row, p.1 ≠ c) : rowGet row c = [] := by
  induction row with
  | nil => rfl
  | cons p rest ih =>
    obtain ⟨k, v⟩ := p
    have hk : k ≠ c := h (k, v) (List.mem_cons_self _ _)
    simp only [rowGet, beq_iff_eq, if_neg hk]
    exact ih (fun q hq => h q (List.mem_cons_of_mem _ hq))

theorem rowGet_pad (row : List (List Char × List Char)) (c : List Char)
    (h : ∀ p ∈ row, p.1 ≠ c) (x : List Char) :
    rowGet ((c, []) :: row) x = rowGet row x := by
  by_cases hx : c = x
  · subst hx
    simp only [rowGet, beq_self_eq_true, if_pos]
    exact (rowGet_absent row c h).symm
  · simp only [rowGet, beq_iff_eq, if_neg hx]

theorem rowToRecord_congr (cfg : CSVConfig) (r1 r2 : List (List Char × List Char))
    (h : ∀ x, rowGet r1 x = rowGet r2 x) :
    rowToRecord cfg r1 = rowToRecord cfg r2 := by
  have hg : ∀ o : Option (List Char), getField r1 o = getField r2 o := by
    intro o; cases o <;> simp [getField, h]
  have hs : (match cfg.statusCol with
      | some c => memStr cfg.activeValues (rowGet r1 c)
      | none => true) = (match cfg.statusCol with
      | some c => memStr cfg.activeValues (rowGet r2 c)
      | none => true) := by
    cases cfg.statusCol <;> simp [h]
  have hd : cfg.deptCol.map (fun c => rowGet r1 c) = cfg.deptCol.map (fun c => rowGet r2 c) := by
    cases cfg.deptCol <;> simp [h]
  unfold rowToRecord
  rw [hg, hg, hg, hs, hd]

theorem rowToRecord_isSome (cfg : CSVConfig) (row : List (List Char × List Char)) :
    (rowToRecord cfg row).isSome = true ↔
      classifyTier cfg.tierMapping (getField row cfg.titleCol) (getField row cfg.gradeCol) ≠ 0 := by
  unfold rowToRecord
  dsimp only
  split_ifs with h
  · simp; omega
  · simp; omega

theorem rowToRecord_some (cfg : CSVConfig) (row : List (List Char × List Char))
    (e : StandardEmployee) (h : rowToRecord cfg row = some e) :
    e.tier = classifyTier cfg.tierMapping (getField row cfg.titleCol) (getField row cfg.gradeCol) ∧
      1 ≤ e.tier ∧ e.tier ≤ 6 := by
  unfold rowToRecord at h
  dsimp only at h
  split_ifs at h with hp
  · have he := (Option.some_inj.mp h).symm
    subst he
    dsimp only
    refine ⟨rfl, ?_, ?_⟩ <;>
      rcases classifyTier_range cfg.tierMapping (getField row cfg.titleCol)
        (getField row cfg.gradeCol) with h0 | ⟨h1, h6⟩ <;> omega

/-- C1: for every rule table, title and grade, if tier `t1 < t2` both match a
keyword of the title and no tier earlier than `t1` passes its keyword or
grade check, then `classify_tier` returns `t1`: tiers are tested in
ascending order 1..6 and the first success wins. -/
theorem claim_c1_ascending_tier_priority (m : Nat → TierRule) (title grade : List Char)
    (t1 t2 : Nat) (h1 : 1 ≤ t1) (h12 : t1 < t2) (h2 : t2 ≤ 6)
    (hk1 : kwHit (m t1) (lowerStr title) = true)
    (hk2 : kwHit (m t2) (lowerStr title) = true)
    (hlow : ∀ t, 1 ≤ t → t < t1 → tierHit m title grade t = false) :
    classifyTier m title grade = t1 :=
  classifyTier_eq_of m title grade t1 h1 (by omega)
    (by unfold tierHit; rw [hk1]; rfl) hlow

/-- Witness for C1: "Lead Analyst" matches tier-5 ("lead") and tier-6
("analyst") keywords and no earlier tier, and classifies as 5. -/
theorem claim_c1_witness :
    classifyTier defaultTierKeywords (cl "Lead Analyst") [] = 5 :=
  claim_c1_ascending_tier_priority defaultTierKeywords (cl "Lead Analyst") [] 5 6
    (by norm_num) (by norm_num) (by norm_num) (by decide) (by decide)
    (by intro t ht1 ht5; interval_cases t <;> decide)

/-- C7: the spec's concrete test vector for `DataAdapter.classify_tier`
under the default rule table. -/
theorem claim_c7_concrete_vectors :
    classifyTier defaultTierKeywords (cl "") (cl "") = 0 ∧
    classifyTier defaultTierKeywords (cl "Chief Executive Officer") (cl "") = 2 ∧
    classifyTier defaultTierKeywords (cl "Independent Director") (cl "") = 1 ∧
    classifyTier defaultTierKeywords (cl "Senior Manager") (cl "") = 4 := by
  refine ⟨by decide, by decide, by decide, by decide⟩

/-- C10: under the default rule table the tier-1 keyword list contains the
bare substring "director", so every title containing "director" (after
lower-casing) classifies as tier 1 — in particular every title matching
the tier-3 "senior director" or tier-4 "associate director"/"director"
entries, which therefore never determine the result. -/
theorem claim_c10_director_always_tier1 :
    (∀ title grade, subIn (cl "director") (lowerStr title) = true →
       classifyTier defaultTierKeywords title grade = 1) ∧
    (∀ title grade, subIn (cl "senior director") (lowerStr title) = true →
       classifyTier defaultTierKeywords title grade = 1) ∧
    (∀ title grade, subIn (cl "associate director") (lowerStr title) = true →
       classifyTier defaultTierKeywords title grade = 1) ∧
    classifyTier defaultTierKeywords (cl "Senior Director") [] = 1 ∧
    classifyTier defaultTierKeywords (cl "Associate Director") [] = 1 ∧
    classifyTier defaultTierKeywords (cl "Director of Engineering") [] = 1 := by
  have hdir : ∀ title grade, subIn (cl "director") (lowerStr title) = true →
      classifyTier defaultTierKeywords title grade = 1 := by
    intro title grade h
    apply classifyTier_eq_of _ _ _ 1 (le_refl 1) (by norm_num)
    · unfold tierHit
      have hk : kwHit (defaultTierKeywords 1) (lowerStr title) = true := by
        unfold kwHit
        refine List.any_eq_true.mpr ⟨cl "director", ?_, h⟩
        simp [defaultTierKeywords]
      rw [hk]; rfl
    · intro t ht1 ht0; omega
  refine ⟨hdir, ?_, ?_, by decide, by decide, by decide⟩
  · intro title grade h
    exact hdir title grade (subIn_trans (by decide) h)
  · intro title grade h
    exact hdir title grade (subIn_trans (by decide) h)

/-- Witness for C10: a fresh title containing "director" classifies as 1. -/
theorem claim_c10_witness :
    classifyTier defaultTierKeywords (cl "Regional Director") [] = 1 :=
  claim_c10_director_always_tier1.1 (cl "Regional Director") [] (by decide)

/-- Counterexample to C3: the title "boards" is classified (tier 1, via the
keyword "board"), although no keyword of any tier matches it under the
spec's word-boundary padded matcher and no grade matches the empty grade;
so matching is not the padded-substring relation the claim states. -/
theorem claim_c3_counterexample :
    classifyTier defaultTierKeywords (cl "boards") (cl "") = 1 ∧
    ([1, 2, 3, 4, 5, 6].all
      (fun t => (defaultTierKeywords t).keywords.all
        (fun kw => ! specKeywordMatch kw (cl "boards")))) = true ∧
    ([1, 2, 3, 4, 5, 6].all
      (fun t => ! memStr (defaultTierKeywords t).grades (upperStr (cl "")))) = true := by
  refine ⟨by decide, by decide, by decide⟩

/-- C3 amended: `DataAdapter.classify_tier` matches a pattern iff it is a
plain substring of the lower-cased title (no padding); the spec's padded
matcher is strictly stronger — every padded match implies a plain
substring match of the lower-cased pattern. -/
theorem claim_c3_amended_match_semantics :
    (∀ kw s, subIn kw s = true ↔ ∃ u v, s = u ++ kw ++ v) ∧
    (∀ kw title, specKeywordMatch kw title = true →
       subIn (lowerStr kw) (lowerStr title) = true) := by
  refine ⟨subIn_iff, ?_⟩
  intro kw title h
  exact unpadMatch h

/-- Witness for the amended C3: a padded match on a concrete title yields
a plain substring match. -/
theorem claim_c3_witness :
    subIn (lowerStr (cl "chairman")) (lowerStr (cl "The Chairman Role")) = true :=
  claim_c3_amended_match_semantics.2 (cl "chairman") (cl "The Chairman Role") (by decide)

/-- Counterexample to C4: with the default caller-supplied lists,
`CSVAdapter._map_gender` maps "male" to "O" even though the upper-cased
trimmed input is in the male token list — the input is not upper-cased
before matching. -/
theorem claim_c4_counterexample :
    mapGender csvDefaultGenderValues (cl "male") = cl "O" ∧
    memStr csvDefaultGenderValues.male (upperStr (trimStr (cl "male"))) = true := by
  refine ⟨by decide, by decide⟩

/-- C4 amended: `DataAdapter.normalize_gender` is total into M/F/O, trims
and upper-cases before matching its fixed lists, and maps the empty and
any unmatched input to "O"; `CSVAdapter._map_gender` is total into M/F/O
but only trims, matching the configured lists case-sensitively. -/
theorem claim_c4_amended_gender_token (v : List Char) (gv : GenderValues) :
    (normalizeGender v = cl "M" ∨ normalizeGender v = cl "F" ∨ normalizeGender v = cl "O") ∧
    normalizeGender [] = cl "O" ∧
    (memStr ngMaleTokens (upperStr (trimStr v)) = true → normalizeGender v = cl "M") ∧
    (memStr ngMaleTokens (upperStr (trimStr v)) = false →
      memStr ngFemaleTokens (upperStr (trimStr v)) = true → normalizeGender v = cl "F") ∧
    (memStr ngMaleTokens (upperStr (trimStr v)) = false →
      memStr ngFemaleTokens (upperStr (trimStr v)) = false → normalizeGender v = cl "O") ∧
    (mapGender gv v = cl "M" ∨ mapGender gv v = cl "F" ∨ mapGender gv v = cl "O") ∧
    (memStr gv.male (trimStr v) = true → mapGender gv v = cl "M") ∧
    (memStr gv.male (trimStr v) = false → memStr gv.female (trimStr v) = true →
      mapGender gv v = cl "F") ∧
    (memStr gv.male (trimStr v) = false → memStr gv.female (trimStr v) = false →
      mapGender gv v = cl "O") := by
  refine ⟨?_, rfl, ?_, ?_, ?_, ?_, ?_, ?_, ?_⟩
  · unfold normalizeGender
    by_cases hv : v = []
    · simp [hv]
    · rw [if_neg hv]; dsimp only
      by_cases h1 : memStr ngMaleTokens (upperStr (trimStr v)) = true
      · rw [if_pos h1]; left; rfl
      · rw [if_neg h1]
        by_cases h2 : memStr ngFemaleTokens (upperStr (trimStr v)) = true
        · rw [if_pos h2]; right; left; rfl
        · rw [if_neg h2]; right; right; rfl
  · intro h
    unfold normalizeGender
    by_cases hv : v = []
    · subst hv; exact absurd h (by decide)
    · rw [if_neg hv]; dsimp only; rw [if_pos h]
  · intro hm hf
    unfold normalizeGender
    by_cases hv : v = []
    · subst hv; exact absurd hf (by decide)
    · rw [if_neg hv]; dsimp only; rw [if_neg (by simp [hm]), if_pos hf]
  · intro hm hf
    unfold normalizeGender
    by_cases hv : v = []
    · subst hv; rfl
    · rw [if_neg hv]; dsimp only; rw [if_neg (by simp [hm]), if_neg (by simp [hf])]
  · unfold mapGender
    dsimp only
    by_cases h1 : memStr gv.male (trimStr v) = true
    · rw [if_pos h1]; left; rfl
    · rw [if_neg h1]
      by_cases h2 : memStr gv.female (trimStr v) = true
      · rw [if_pos h2]; right; left; rfl
      · rw [if_neg h2]; right; right; rfl
  · intro h
    unfold mapGender
    dsimp only; rw [if_pos h]
  · intro hm hf
    unfold mapGender
    dsimp only; rw [if_neg (by simp [hm]), if_pos hf]
  · intro hm hf
    unfold mapGender
    dsimp only; rw [if_neg (by simp [hm]), if_neg (by simp [hf])]

/-- Witness for the amended C4: a padded mixed-case male token normalizes
to "M", and a padded configured female token maps to "F". -/
theorem claim_c4_witness :
    normalizeGender (cl " male ") = cl "M" ∧
    mapGender csvDefaultGenderValues (cl " Woman ") = cl "F" :=
  ⟨(claim_c4_amended_gender_token (cl " male ") csvDefaultGenderValues).2.2.1 (by decide),
   (claim_c4_amended_gender_token (cl " Woman ") csvDefaultGenderValues).2.2.2.2.2.2.2.1
     (by decide) (by decide)⟩

/-- C5: `estimate_gender` lower-cases and trims the name; the empty string
yields "U"; an exact lexicon hit is returned immediately; otherwise the
female suffix list is tested before the male one (female-biased
tie-break), a female suffix matching only when the name length exceeds
its threshold 3 (male suffixes carry no threshold); with no match the
result is "U". -/
theorem claim_c5_estimate_gender (s : List Char) (g : List Char) :
    estimateGender [] = cl "U" ∧
    (s ≠ [] → assocFind indianNamesGender (trimStr (lowerStr s)) = some g →
       estimateGender s = g) ∧
    (s ≠ [] → assocFind indianNamesGender (trimStr (lowerStr s)) = none →
       (∃ e ∈ femaleEndings, endsW e (trimStr (lowerStr s)) = true ∧
          3 < (trimStr (lowerStr s)).length) →
       estimateGender s = cl "F") ∧
    (s ≠ [] → assocFind indianNamesGender (trimStr (lowerStr s)) = none →
       (∀ e ∈ femaleEndings, ¬(endsW e (trimStr (lowerStr s)) = true ∧
          3 < (trimStr (lowerStr s)).length)) →
       (∃ e ∈ maleEndings, endsW e (trimStr (lowerStr s)) = true) →
       estimateGender s = cl "M") ∧
    (s ≠ [] → assocFind indianNamesGender (trimStr (lowerStr s)) = none →
       (∀ e ∈ femaleEndings, ¬(endsW e (trimStr (lowerStr s)) = true ∧
          3 < (trimStr (lowerStr s)).length)) →
       (∀ e ∈ maleEndings, endsW e (trimStr (lowerStr s)) = false) →
       estimateGender s = cl "U") := by
  have hf_any : ∀ n : List Char,
      (femaleEndings.any (fun e => endsW e n && decide (3 < n.length))) = true ↔
      (∃ e ∈ femaleEndings, endsW e n = true ∧ 3 < n.length) := by
    intro n
    rw [List.any_eq_true]
    constructor
    · rintro ⟨e, he, hb⟩
      rw [Bool.and_eq_true, decide_eq_true_eq] at hb
      exact ⟨e, he, hb⟩
    · rintro ⟨e, he, h1, h2⟩
      exact ⟨e, he, by rw [Bool.and_eq_true, decide_eq_true_eq]; exact ⟨h1, h2⟩⟩
  have hm_any : ∀ n : List Char,
      (maleEndings.any (fun e => endsW e n)) = true ↔
      (∃ e ∈ maleEndings, endsW e n = true) := fun n => List.any_eq_true
  refine ⟨rfl, ?_, ?_, ?_, ?_⟩
  · intro hs hlex
    unfold estimateGender
    rw [if_neg hs]
    dsimp only
    rw [hlex]
  · intro hs hlex hex
    unfold estimateGender
    rw [if_neg hs]
    dsimp only
    rw [hlex]
    rw [if_pos ((hf_any (trimStr (lowerStr s))).mpr hex)]
  · intro hs hlex hnf hex
    unfold estimateGender
    rw [if_neg hs]
    dsimp only
    rw [hlex]
    have hnf2 : (femaleEndings.any
        (fun e => endsW e (trimStr (lowerStr s)) &&
          decide (3 < (trimStr (lowerStr s)).length))) = false := by
      rw [Bool.eq_false_iff]
      intro hc
      obtain ⟨e, he, h1, h2⟩ := (hf_any (trimStr (lowerStr s))).mp hc
      exact hnf e he ⟨h1, h2⟩
    rw [if_neg (by simp [hnf2]), if_pos ((hm_any (trimStr (lowerStr s))).mpr hex)]
  · intro hs hlex hnf hnm
    unfold estimateGender
    rw [if_neg hs]
    dsimp only
    rw [hlex]
    have hnf2 : (femaleEndings.any
        (fun e => endsW e (trimStr (lowerStr s)) &&
          decide (3 < (trimStr (lowerStr s)).length))) = false := by
      rw [Bool.eq_false_iff]
      intro hc
      obtain ⟨e, he, h1, h2⟩ := (hf_any (trimStr (lowerStr s))).mp hc
      exact hnf e he ⟨h1, h2⟩
    have hnm2 : (maleEndings.any (fun e => endsW e (trimStr (lowerStr s)))) = false := by
      rw [Bool.eq_false_iff]
      intro hc
      obtain ⟨e, he, h1⟩ := (hm_any (trimStr (lowerStr s))).mp hc
      rw [hnm e he] at h1
      exact Bool.false_ne_true h1
    rw [if_neg (by simp [hnf2]), if_neg (by simp [hnm2])]

/-- Witness for C5: lexicon hit "Priya" is female; lexicon-missing
"Xyzza" matches the female suffix "a" with length above 3. -/
theorem claim_c5_witness :
    estimateGender (cl "Priya") = cl "F" ∧ estimateGender (cl "Xyzza") = cl "F" :=
  ⟨(claim_c5_estimate_gender (cl "Priya") (cl "F")).2.1 (by decide) (by decide),
   (claim_c5_estimate_gender (cl "Xyzza") (cl "F")).2.2.1 (by decide) (by decide)
     ⟨cl "a", by decide, by decide, by decide⟩⟩

/-- Counterexample to C8: for a bucket with 2 male and 1 female,
`female_pct` is the rounded 33.3, not the exact 100/3 the claim's
formula gives. -/
theorem claim_c8_counterexample :
    femalePct ⟨2, 1, 0⟩ ≠ (1 : ℚ) / ((2 : ℚ) + 1) * 100 := by
  have h : femalePct ⟨2, 1, 0⟩ = 333 / 10 := by
    unfold femalePct
    norm_num
    rw [round_eq, show ((1000 : ℚ) / 3 + 1 / 2) = 2003 / 6 by norm_num]
    have hf : ⌊(2003 : ℚ) / 6⌋ = 333 := by
      rw [Int.floor_eq_iff]
      constructor <;> norm_num
    rw [hf]
    norm_num
  rw [h]
  norm_num

/-- C8 amended: every bucket satisfies `total = male + female + unknown`;
`female_pct` is 0 when `male + female = 0` (no division by zero), and
otherwise equals `female / (male + female) * 100` up to the one-decimal
rounding error of at most 1/20. -/
theorem claim_c8_amended_division_safe (c : AggregateCount) :
    totalCount c = c.male + c.female + c.unknown ∧
    (c.male + c.female = 0 → femalePct c = 0) ∧
    (0 < c.male + c.female →
      |femalePct c - (c.female : ℚ) / ((c.male : ℚ) + (c.female : ℚ)) * 100| ≤ 1 / 20) := by
  refine ⟨rfl, ?_, ?_⟩
  · intro h
    unfold femalePct
    rw [if_neg (by omega)]
  · intro h
    unfold femalePct
    rw [if_pos h]
    set x : ℚ := (c.female : ℚ) / ((c.male : ℚ) + (c.female : ℚ)) * 100 with hx
    have hr := abs_sub_round (x * 10)
    rw [abs_sub_comm] at hr
    have h10 : ((round (x * 10) : ℤ) : ℚ) / 10 - x = ((round (x * 10) : ℤ) - x * 10) / 10 := by
      ring
    rw [h10, abs_div]
    have h2 : |(10 : ℚ)| = 10 := by norm_num
    rw [h2]
    linarith

/-- Witness for the amended C8: the empty bucket gives 0, and the 2M/1F
bucket is within 1/20 of the exact ratio. -/
theorem claim_c8_witness :
    femalePct ⟨0, 0, 5⟩ = 0 ∧
    |femalePct ⟨2, 1, 0⟩ -
      ((⟨2, 1, 0⟩ : AggregateCount).female : ℚ) /
        (((⟨2, 1, 0⟩ : AggregateCount).male : ℚ) +
          ((⟨2, 1, 0⟩ : AggregateCount).female : ℚ)) * 100| ≤ 1 / 20 :=
  ⟨(claim_c8_amended_division_safe ⟨0, 0, 5⟩).2.1 rfl,
   (claim_c8_amended_division_safe ⟨2, 1, 0⟩).2.2 (by norm_num)⟩

/-- Counterexample to C2: a batch of one card whose title is
unclassifiable (tier 0) leaves `total_profiles_analyzed` at 1, not at
N − M = 0: the counter is incremented for every card, classified or not. -/
theorem claim_c2_counterexample :
    classifyTitle (cl "wizard") = 0 ∧
    (ingest emptyAgg [(([] : List Char), cl "wizard")]).totalProfilesAnalyzed = 1 ∧
    sumBuckets (ingest emptyAgg [(([] : List Char), cl "wizard")]) = 0 := by
  refine ⟨by decide, by decide, by decide⟩

/-- C2 amended: over a batch of N cards of which M are unclassifiable,
`total_profiles_analyzed` equals N (not N − M), while the sum of the six
bucket totals equals N − M; each classified card bumps exactly one gender
counter in exactly the bucket of its tier and leaves the other buckets
unchanged. -/
theorem claim_c2_amended_aggregation_totals :
    (∀ cards : List (List Char × List Char),
       (ingest emptyAgg cards).totalProfilesAnalyzed = cards.length) ∧
    (∀ cards : List (List Char × List Char),
       sumBuckets (ingest emptyAgg cards) +
         (cards.filter (fun c => classifyTitle c.2 == 0)).length = cards.length) ∧
    (∀ (st : CompanyAgg) (n t : List Char), classifyTitle t ≠ 0 →
       ((∀ j, 1 ≤ j → j ≤ 6 → j ≠ classifyTitle t →
           getB (processCard st n t) j = getB st j) ∧
        incOne (getB st (classifyTitle t)) (getB (processCard st n t) (classifyTitle t)))) := by
  refine ⟨?_, ?_, ?_⟩
  · intro cards
    have h := ingest_total cards emptyAgg
    rw [show emptyAgg.totalProfilesAnalyzed = 0 from rfl, Nat.zero_add] at h
    exact h
  · intro cards
    have h := ingest_sum cards emptyAgg
    rw [show sumBuckets emptyAgg = 0 from rfl, Nat.zero_add] at h
    exact h
  · intro st n t h
    have hrange := classifyTitle_range t
    have h1 : 1 ≤ classifyTitle t := by omega
    have h6 : classifyTitle t ≤ 6 := by omega
    have hget : ∀ j, getB (processCard st n t) j =
        getB (applyTier st (classifyTitle t) (estimateGender ((splitWS n).headD []))) j := by
      intro j
      rcases j with _ | _ | _ | _ | _ | _ | _ | j <;> rfl
    constructor
    · intro j hj1 hj6 hne
      rw [hget j]
      exact getB_other st _ _ j hj1 hj6 hne
    · rw [hget (classifyTitle t), getB_bump st _ _ h1 h6]
      exact incOne_bump _ _

/-- Witness for the amended C2: processing a classified "CEO" card bumps
exactly one counter of tier bucket 2. -/
theorem claim_c2_witness :
    incOne (getB emptyAgg (classifyTitle (cl "CEO")))
      (getB (processCard emptyAgg (cl "Priya") (cl "CEO")) (classifyTitle (cl "CEO"))) :=
  (claim_c2_amended_aggregation_totals.2.2 emptyAgg (cl "Priya") (cl "CEO") (by decide)).2

/-- C6: `CSVAdapter.fetch_employees` produces a record iff tier
classification of the row's title/grade is non-zero, and every record
produced carries that tier, always in 1..6 — tier-0 rows are dropped,
never stored. -/
theorem claim_c6_drop_iff_unclassifiable :
    (∀ (cfg : CSVConfig) (row : List (List Char × List Char)),
       (rowToRecord cfg row).isSome = true ↔
         classifyTier cfg.tierMapping (getField row cfg.titleCol)
           (getField row cfg.gradeCol) ≠ 0) ∧
    (∀ (cfg : CSVConfig) (row : List (List Char × List Char)) (e : StandardEmployee),
       rowToRecord cfg row = some e →
         e.tier = classifyTier cfg.tierMapping (getField row cfg.titleCol)
           (getField row cfg.gradeCol) ∧ 1 ≤ e.tier ∧ e.tier ≤ 6) ∧
    (∀ (cfg : CSVConfig) (rows : List (List (List Char × List Char)))
       (e : StandardEmployee), e ∈ fetchEmployees cfg rows → 1 ≤ e.tier ∧ e.tier ≤ 6) := by
  refine ⟨rowToRecord_isSome, rowToRecord_some, ?_⟩
  intro cfg rows e he
  unfold fetchEmployees at he
  rw [List.mem_filterMap] at he
  obtain ⟨row, _, hr⟩ := he
  exact (rowToRecord_some cfg row e hr).2

/-- Witness for C6: a classifiable demo row yields a record, whose tier
is 2 and within 1..6. -/
theorem claim_c6_witness :
    (rowToRecord demoCfg [(cl "designation", cl "CEO"), (cl "gender", cl "M"),
        (cl "status", cl "Active")]).isSome = true ∧
    (1 ≤ (⟨cl "M", 2, true, none, some []⟩ : StandardEmployee).tier ∧
      (⟨cl "M", 2, true, none, some []⟩ : StandardEmployee).tier ≤ 6) :=
  ⟨(claim_c6_drop_iff_unclassifiable.1 demoCfg _).mpr (by decide),
   (claim_c6_drop_iff_unclassifiable.2.1 demoCfg
     [(cl "designation", cl "CEO"), (cl "gender", cl "M"), (cl "status", cl "Active")]
     ⟨cl "M", 2, true, none, some []⟩ rfl).2⟩

/-- C9: a row missing a mapped field is processed exactly as if that
field were the empty string (padding the row with an explicit empty
value changes nothing), and batch processing distributes over
concatenation — a single malformed record never aborts the rest, in the
CSV path and in the card-ingestion path alike. -/
theorem claim_c9_malformed_tolerance :
    (∀ (cfg : CSVConfig) (row : List (List Char × List Char)) (c : List Char),
       (∀ p ∈ row, p.1 ≠ c) →
       rowToRecord cfg ((c, []) :: row) = rowToRecord cfg row) ∧
    (∀ (cfg : CSVConfig) (xs ys : List (List (List Char × List Char))),
       fetchEmployees cfg (xs ++ ys) = fetchEmployees cfg xs ++ fetchEmployees cfg ys) ∧
    (∀ (st : CompanyAgg) (xs ys : List (List Char × List Char)),
       ingest st (xs ++ ys) = ingest (ingest st xs) ys) := by
  refine ⟨?_, ?_, ?_⟩
  · intro cfg row c h
    exact rowToRecord_congr cfg _ _ (rowGet_pad row c h)
  · intro cfg xs ys
    unfold fetchEmployees
    exact List.filterMap_append xs ys (rowToRecord cfg)
  · intro st xs ys
    unfold ingest
    exact List.foldl_append _ _ xs ys

/-- Witness for C9: padding a demo row with an explicitly empty grade
field leaves the produced record unchanged. -/
theorem claim_c9_witness :
    rowToRecord demoCfg ((cl "grade", []) :: [(cl "designation", cl "CEO")]) =
      rowToRecord demoCfg [(cl "designation", cl "CEO")] :=
  claim_c9_malformed_tolerance.1 demoCfg [(cl "designation", cl "CEO")] (cl "grade")
    (by decide)
